import Mathlib

/-!
Verification of the `get_rates` utility (src/get_rates/get_rates.py).

The program fetches Treasury yield-curve XML feeds, locates the last
`entry` element, descends through its unique `content` and `properties`
children, extracts a date and four tenor yields into a `Rates` record,
and prints the record as CSV.

The shallow embedding below models:
  * XML elements as a tag / optional-text / children tree (`Element`);
  * Python `str.endswith` (`pyEndsWith`) and `str.strip` (`pyStrip`);
  * the `decimal.Decimal` string constructor and `str()` rendering
    (`Decimal`, `parseNumeric`, `Decimal.render`) — per the Python
    documentation the constructor stores exactly the digits of the
    input string; the context precision only affects arithmetic, and
    this program performs no Decimal arithmetic, so the
    `decimal.getcontext().prec = 6` assignment in `main` has no effect
    on any value it parses or prints;
  * exceptions (`AssertionError` from `assert`, `InvalidOperation`
    from `Decimal`, `AttributeError` from reading a dataclass field
    that `__init__` never assigned) as `Except String`.
-/

/-- Whitespace characters removed by Python `str.strip()` (the ASCII
ones; the feeds carry ASCII text). -/
def isPySpace (c : Char) : Bool :=
  c = ' ' || c = '\t' || c = '\n' || c = '\x0d' || c = '\x0b' || c = '\x0c'

/-- Model of Python `str.strip()`: drop leading and trailing whitespace. -/
def pyStrip (s : String) : String :=
  ⟨((s.data.dropWhile isPySpace).reverse.dropWhile isPySpace).reverse⟩

/-- Model of Python `s.endswith(t)`: `t` is a suffix of `s`. -/
def pyEndsWith (s t : String) : Bool :=
  t.data.isSuffixOf s.data

/-- Numeric value of a digit character. -/
def digitVal (c : Char) : Nat := c.toNat - 48

/-- Character for a digit value. -/
def digitChar (d : Nat) : Char := Char.ofNat (48 + d)

/-- String made of the given digit values. -/
def digitsStr (ds : List Nat) : String := ⟨ds.map digitChar⟩

/-- Model of the value stored by Python `decimal.Decimal`: a finite
number is a sign, a coefficient digit list (most significant first)
and an exponent; the special values are signed infinities and
(quiet or signaling) NaNs with a digit payload. -/
inductive Decimal where
  | finite (sign : Bool) (coeff : List Nat) (exp : Int)
  | inf (sign : Bool)
  | nan (sign : Bool) (signaling : Bool) (payload : List Nat)
  deriving DecidableEq, Repr

/-- Leading-zero normalisation applied by the `Decimal` constructor to
the coefficient: strip leading zeros, keeping a single `0` when every
digit is zero. -/
def stripLeadingZeros (ds : List Nat) : List Nat :=
  match ds.dropWhile (· = 0) with
  | [] => [0]
  | l => l

/-- Parse an optional leading sign; `true` means negative. -/
def parseSign : List Char → Bool × List Char
  | '+' :: rest => (false, rest)
  | '-' :: rest => (true, rest)
  | cs => (false, cs)

/-- Split a leading run of decimal digits off a character list. -/
def spanDigits (cs : List Char) : List Nat × List Char :=
  ((cs.takeWhile Char.isDigit).map digitVal, cs.dropWhile Char.isDigit)

/-- Natural number denoted by a digit list (most significant first). -/
def natOfDigits (ds : List Nat) : Nat :=
  ds.foldl (fun a d => a * 10 + d) 0

/-- Model of the numeric-string grammar accepted by the
`decimal.Decimal` constructor: underscores are removed, then
`[sign] (digits [. digits] | . digits) [(e|E) [sign] digits]`,
or a signed `Infinity`/`Inf`, `NaN`/`sNaN` with optional digit
payload, case-insensitively. Returns `none` on any other input
(the constructor raises `InvalidOperation`). -/
def parseNumeric (cs0 : List Char) : Option Decimal :=
  let cs1 := cs0.filter (fun c => c ≠ '_')
  let sgnRest := parseSign cs1
  let sgn := sgnRest.1
  let cs := sgnRest.2
  let lower := cs.map Char.toLower
  if lower = "infinity".data || lower = "inf".data then
    some (.inf sgn)
  else if lower.take 3 = "nan".data && (lower.drop 3).all Char.isDigit then
    some (.nan sgn false ((cs.drop 3).map digitVal))
  else if lower.take 4 = "snan".data && (lower.drop 4).all Char.isDigit then
    some (.nan sgn true ((cs.drop 4).map digitVal))
  else
    let intPart := spanDigits cs
    let afterInt := intPart.2
    let fracPart :=
      match afterInt with
      | '.' :: rest => spanDigits rest
      | _ => ([], afterInt)
    let intD := intPart.1
    let fracD := fracPart.1
    if intD.isEmpty && fracD.isEmpty then none
    else
      match fracPart.2 with
      | [] =>
          some (.finite sgn (stripLeadingZeros (intD ++ fracD))
                  (-(fracD.length : Int)))
      | e :: rest =>
          if e = 'e' || e = 'E' then
            let esgnRest := parseSign rest
            let expPart := spanDigits esgnRest.2
            if expPart.1.isEmpty || !expPart.2.isEmpty then none
            else
              let ev : Int := (natOfDigits expPart.1 : Int)
              let ev := if esgnRest.1 then -ev else ev
              some (.finite sgn (stripLeadingZeros (intD ++ fracD))
                      (ev - (fracD.length : Int)))
          else none

/-- Python `Decimal(s)` for an (already stripped) string `s`. -/
def pyDecimalOfString (s : String) : Option Decimal :=
  parseNumeric s.data

/-- Model of Python `str(d)` for a `Decimal` `d`: the
`to-scientific-string` conversion of the decimal arithmetic
specification, as implemented by CPython. -/
def Decimal.render : Decimal → String
  | .inf sgn => (if sgn then "-" else "") ++ "Infinity"
  | .nan sgn signaling payload =>
      (if sgn then "-" else "")
        ++ (if signaling then "sNaN" else "NaN") ++ digitsStr payload
  | .finite sgn coeff e =>
      let n : Int := (coeff.length : Int)
      let adjusted : Int := e + n - 1
      let body :=
        if e ≤ 0 && adjusted ≥ -6 then
          if e = 0 then digitsStr coeff
          else if n + e > 0 then
            digitsStr (coeff.take (n + e).toNat) ++ "."
              ++ digitsStr (coeff.drop (n + e).toNat)
          else
            "0." ++ ⟨List.replicate (-(e + n)).toNat '0'⟩ ++ digitsStr coeff
        else
          (if coeff.length = 1 then digitsStr coeff
           else digitsStr (coeff.take 1) ++ "." ++ digitsStr (coeff.drop 1))
            ++ "E"
            ++ (if adjusted < 0 then "-" ++ toString (-adjusted).toNat
                else "+" ++ toString adjusted.toNat)
      (if sgn then "-" else "") ++ body

/-- Number of significant digits a rendered `Decimal` carries: the
length of its stored coefficient (trailing zeros are significant in
`Decimal`). -/
def Decimal.sigDigits : Decimal → Nat
  | .finite _ coeff _ => coeff.length
  | _ => 0

/-- XML element as seen by `xml.etree.ElementTree`: a tag, optional
text content, and a list of child elements in document order. -/
inductive Element where
  | mk (tag : String) (text : Option String) (children : List Element)

/-- Tag of an element. -/
def Element.tag : Element → String
  | .mk t _ _ => t

/-- Text content of an element (`None` when absent). -/
def Element.text : Element → Option String
  | .mk _ t _ => t

/-- Direct children of an element, in document order. -/
def Element.children : Element → List Element
  | .mk _ _ c => c

/-- Kinds of rates, with the US Treasury field prefixes
(`RatesType` enum in the source). -/
inductive RatesType where
  | NOMINAL
  | REAL
  deriving DecidableEq, Repr

/-- Value the enum member carries (the CSV field prefix). -/
def RatesType.value : RatesType → String
  | .NOMINAL => "BC_"
  | .REAL => "TC_"

/-- State of a `Rates` dataclass instance. `__init__` assigns a field
only when a child with the matching tag suffix is seen, so each field
other than `rt` is optional: `none` models a dataclass attribute that
was never assigned (reading it raises `AttributeError`). -/
structure Rates where
  rt : RatesType
  date : Option String
  r5y : Option Decimal
  r10y : Option Decimal
  r20y : Option Decimal
  r30y : Option Decimal
  deriving Repr

/-- Children of `e` whose tag ends with `tag`
(`find_all_ending_with` in the source). -/
def find_all_ending_with (e : Element) (tag : String) : List Element :=
  e.children.filter (fun child => pyEndsWith child.tag tag)

/-- Variant of `find_all_ending_with` that asserts exactly one child
matches and returns it (`find_only_one_ending_with`). A failed
`assert` raises `AssertionError`, modelled as `Except.error`. -/
def find_only_one_ending_with (e : Element) (tag : String) :
    Except String Element :=
  let child_elts := find_all_ending_with e tag
  if h : child_elts.length = 1 then
    .ok (child_elts.get ⟨0, by omega⟩)
  else
    .error "AssertionError"

/-- Last `entry`-suffixed child of `root`, or `none` when there is no
such child (`get_last_entry`). The source iterates the matching list
keeping the most recent element, which the fold reproduces. -/
def get_last_entry (root : Element) : Option Element :=
  (find_all_ending_with root "entry").foldl (fun _ elt => some elt) none

/-- Stripped text of an element, empty when the text is `None`
(`extract_stripped_text`). The `e is None` guard of the source is
unrepresentable here: an `Element` value always exists. -/
def extract_stripped_text (e : Element) : String :=
  match e.text with
  | none => ""
  | some etext => pyStrip etext

/-- Decimal value of an element's text (`extract_decimal`). The
`Decimal` constructor raises `InvalidOperation` on text that is not a
valid numeric string. -/
def extract_decimal (e : Element) : Except String Decimal :=
  match pyDecimalOfString (extract_stripped_text e) with
  | some d => .ok d
  | none => .error "InvalidOperation"

/-- One iteration of the `for child in properties` loop of
`Rates.__init__`: route the child by tag suffix to the matching field,
later assignments overwriting earlier ones. -/
def processChild (r : Rates) (child : Element) : Except String Rates :=
  let child_tag := child.tag
  if pyEndsWith child_tag "DATE" then
    .ok { r with date := some (extract_stripped_text child) }
  else if pyEndsWith child_tag "5YEAR" then
    (extract_decimal child).map (fun d => { r with r5y := some d })
  else if pyEndsWith child_tag "10YEAR" then
    (extract_decimal child).map (fun d => { r with r10y := some d })
  else if pyEndsWith child_tag "20YEAR" then
    (extract_decimal child).map (fun d => { r with r20y := some d })
  else if pyEndsWith child_tag "30YEAR" then
    (extract_decimal child).map (fun d => { r with r30y := some d })
  else
    .ok r

/-- Run the `Rates.__init__` loop over a list of children; an
exception aborts the loop and propagates. -/
def processChildren : List Element → Rates → Except String Rates
  | [], r => .ok r
  | c :: cs, r =>
      match processChild r c with
      | .error msg => .error msg
      | .ok next => processChildren cs next

/-- Model of `Rates(properties, rt)` (`Rates.__init__`): start with
only `rt` assigned and fold the loop over the direct children. -/
def Rates.init (properties : Element) (rt : RatesType) :
    Except String Rates :=
  processChildren properties.children
    { rt := rt, date := none, r5y := none, r10y := none,
      r20y := none, r30y := none }

/-- Read a dataclass field inside an f-string: `AttributeError` when
`__init__` never assigned it. -/
def readField (label : String) : Option α → Except String α
  | some v => .ok v
  | none => .error ("AttributeError: " ++ label)

/-- Model of `Rates.print_as_csv`: the lines written to standard
output, or the exception raised while formatting them. -/
def print_as_csv (r : Rates) : Except String (List String) := do
  let pfx := r.rt.value
  let d ← readField "date" r.date
  let v5 ← readField "r5y" r.r5y
  let v10 ← readField "r10y" r.r10y
  let v20 ← readField "r20y" r.r20y
  let v30 ← readField "r30y" r.r30y
  .ok ["NAME,VALUE",
       "NEW_DATE," ++ d,
       pfx ++ "5YEAR," ++ v5.render,
       pfx ++ "10YEAR," ++ v10.render,
       pfx ++ "20YEAR," ++ v20.render,
       pfx ++ "30YEAR," ++ v30.render]

/-- Model of `get_rates` after the fetched body has been parsed into
`root`: locate the last entry (returning `none`, the "no data" result,
when absent), descend through the unique `content` and `properties`
children, and build the `Rates`. `Except.error` models an exception
propagating out of `get_rates`. -/
def get_rates (root : Element) (rt : RatesType) :
    Except String (Option Rates) :=
  match get_last_entry root with
  | none => .ok none
  | some last_elt => do
      let content ← find_only_one_ending_with last_elt "content"
      let properties ← find_only_one_ending_with content "properties"
      let r ← Rates.init properties rt
      .ok (some r)

/-- Lines `main` emits for one feed whose parsed document is `root`:
nothing when `get_rates` returned `None`, the CSV block otherwise
(`if rates is not None: rates.print_as_csv()`). -/
def feed_output (root : Element) (rt : RatesType) :
    Except String (List String) := do
  match ← get_rates root rt with
  | none => .ok []
  | some r => print_as_csv r

/-! Concrete feed fragments used to instantiate the theorems. -/

/-- Properties node of the worked example in the specification: all
five fields present, tags carrying a namespace prefix. -/
def propsFull : Element :=
  .mk "m:properties" none
    [ .mk "d:NEW_DATE" (some "2024-01-02") [],
      .mk "d:BC_5YEAR" (some "4.55") [],
      .mk "d:BC_10YEAR" (some "4.20") [],
      .mk "d:BC_20YEAR" (some "4.10") [],
      .mk "d:BC_30YEAR" (some "4.35") [] ]

/-- Properties node with the 5-year tenor field absent. -/
def propsNo5Year : Element :=
  .mk "m:properties" none
    [ .mk "d:NEW_DATE" (some "2024-01-02") [],
      .mk "d:BC_10YEAR" (some "4.20") [],
      .mk "d:BC_20YEAR" (some "4.10") [],
      .mk "d:BC_30YEAR" (some "4.35") [] ]

/-- Properties node whose 5-year tenor text carries ten significant
digits. -/
def propsPrecise : Element :=
  .mk "m:properties" none
    [ .mk "d:NEW_DATE" (some "2024-01-02") [],
      .mk "d:BC_5YEAR" (some "4.123456789") [],
      .mk "d:BC_10YEAR" (some "4.20") [],
      .mk "d:BC_20YEAR" (some "4.10") [],
      .mk "d:BC_30YEAR" (some "4.35") [] ]

def rootTwoEntries : Element :=
  .mk "feed" none
    [ .mk "a:entry" none [], .mk "b:entry" none [], .mk "c:other" none [] ]

def entryOneContent : Element :=
  .mk "a:entry" none [ .mk "m:content" none [], .mk "x:link" none [] ]

def rootNoEntries : Element := .mk "feed" none [ .mk "x:title" (some "t") [] ]

def propsBlank5Year : Element :=
  .mk "m:properties" none [ .mk "d:BC_5YEAR" (some "  ") [] ]

def propsDup : Element :=
  .mk "m:properties" none
    [ .mk "d:NEW_DATE" (some "2024-01-01") [],
      .mk "d:BC_5YEAR" (some "4.1") [],
      .mk "d:BC_10YEAR" (some "4.3") [],
      .mk "d:BC_20YEAR" (some "4.5") [],
      .mk "d:BC_30YEAR" (some "4.7") [],
      .mk "d:NEW_DATE" (some "2024-01-02") [],
      .mk "d:BC_5YEAR" (some "4.2") [],
      .mk "d:BC_10YEAR" (some "4.4") [],
      .mk "d:BC_20YEAR" (some "4.6") [],
      .mk "d:BC_30YEAR" (some "4.8") [] ]

def ratesDup : Rates :=
  { rt := RatesType.NOMINAL, date := some "2024-01-02",
    r5y := some (.finite false [4, 2] (-1)),
    r10y := some (.finite false [4, 4] (-1)),
    r20y := some (.finite false [4, 6] (-1)),
    r30y := some (.finite false [4, 8] (-1)) }

/-! General lemmas about the embedded operations. -/

/-- Folding "keep the latest element" over a list yields its last
element, or the initial accumulator when the list is empty. -/
theorem foldl_keep_last {α : Type} (l : List α) (init : Option α) :
    l.foldl (fun _ e => some e) init =
      match l.getLast? with
      | some x => some x
      | none => init := by
  induction l generalizing init with
  | nil => rfl
  | cons a t ih =>
    cases t with
    | nil => rfl
    | cons b t2 =>
      rw [List.foldl_cons, ih, List.getLast?_cons_cons]
      rcases h : (b :: t2).getLast? with _ | x
      · simp [List.getLast?_eq_none_iff] at h
      · rfl

/-- Two suffix-incomparable strings are never both suffixes of the
same string, so at most one `endswith` branch of the `__init__` loop
can fire for a given tag. -/
theorem endsWith_excl {s t u : String} (ht : pyEndsWith s t = true)
    (h1 : ¬ t.data <:+ u.data) (h2 : ¬ u.data <:+ t.data) :
    pyEndsWith s u = false := by
  unfold pyEndsWith at ht ⊢
  rw [List.isSuffixOf_iff_suffix] at ht
  by_contra hc
  rw [Bool.not_eq_false, List.isSuffixOf_iff_suffix] at hc
  rcases List.suffix_or_suffix_of_suffix ht hc with h | h
  · exact h1 h
  · exact h2 h

/-- The `Decimal` constructor raises only `InvalidOperation`. -/
theorem extract_decimal_error_eq (c : Element) (m : String)
    (h : extract_decimal c = .error m) : m = "InvalidOperation" := by
  unfold extract_decimal at h
  rcases hp : pyDecimalOfString (extract_stripped_text c) with _ | d
  · rw [hp] at h
    simp at h
    exact h.symm
  · rw [hp] at h
    simp at h

/-- Processing a tenor-tagged child whose stripped text is not a valid
numeric string raises `InvalidOperation` from any loop state. -/
theorem processChild_tenor_fail (r : Rates) (c : Element)
    (htenor : pyEndsWith c.tag "5YEAR" = true
      ∨ pyEndsWith c.tag "10YEAR" = true
      ∨ pyEndsWith c.tag "20YEAR" = true
      ∨ pyEndsWith c.tag "30YEAR" = true)
    (hfail : pyDecimalOfString (extract_stripped_text c) = none) :
    processChild r c = .error "InvalidOperation" := by
  have hdec : extract_decimal c = .error "InvalidOperation" := by
    unfold extract_decimal
    rw [hfail]
  rcases htenor with h5 | h10 | h20 | h30
  · have hd : pyEndsWith c.tag "DATE" = false :=
      endsWith_excl h5 (by decide) (by decide)
    simp [processChild, hd, h5, hdec, Except.map]
  · have hd : pyEndsWith c.tag "DATE" = false :=
      endsWith_excl h10 (by decide) (by decide)
    have h5f : pyEndsWith c.tag "5YEAR" = false :=
      endsWith_excl h10 (by decide) (by decide)
    simp [processChild, hd, h5f, h10, hdec, Except.map]
  · have hd : pyEndsWith c.tag "DATE" = false :=
      endsWith_excl h20 (by decide) (by decide)
    have h5f : pyEndsWith c.tag "5YEAR" = false :=
      endsWith_excl h20 (by decide) (by decide)
    have h10f : pyEndsWith c.tag "10YEAR" = false :=
      endsWith_excl h20 (by decide) (by decide)
    simp [processChild, hd, h5f, h10f, h20, hdec, Except.map]
  · have hd : pyEndsWith c.tag "DATE" = false :=
      endsWith_excl h30 (by decide) (by decide)
    have h5f : pyEndsWith c.tag "5YEAR" = false :=
      endsWith_excl h30 (by decide) (by decide)
    have h10f : pyEndsWith c.tag "10YEAR" = false :=
      endsWith_excl h30 (by decide) (by decide)
    have h20f : pyEndsWith c.tag "20YEAR" = false :=
      endsWith_excl h30 (by decide) (by decide)
    simp [processChild, hd, h5f, h10f, h20f, h30, hdec, Except.map]

/-- Any exception the `__init__` loop body raises is
`InvalidOperation`. -/
theorem processChild_error_eq (r : Rates) (c : Element) (msg : String)
    (h : processChild r c = .error msg) : msg = "InvalidOperation" := by
  unfold processChild at h
  dsimp only at h
  split_ifs at h
  all_goals
    first
    | simp at h
    | (rcases he : extract_decimal c with m | d
       · rw [he] at h
         simp [Except.map] at h
         subst h
         exact extract_decimal_error_eq c m he
       · rw [he] at h
         simp [Except.map] at h)

/-- A child that always raises `InvalidOperation` makes the whole
`__init__` loop raise `InvalidOperation`, whatever happens before
it. -/
theorem processChildren_fail (cs : List Element) (c : Element)
    (hmem : c ∈ cs)
    (hc : ∀ r, processChild r c = .error "InvalidOperation") :
    ∀ r, processChildren cs r = .error "InvalidOperation" := by
  induction cs with
  | nil => cases hmem
  | cons a t ih =>
    intro r
    rcases List.mem_cons.mp hmem with rfl | hm
    · unfold processChildren
      rw [hc r]
    · unfold processChildren
      rcases ha : processChild r a with m | next
      · rw [processChild_error_eq r a m ha]
      · exact ih hm next

/-- Splitting the `__init__` loop at a list append: the second half
runs from the state the first half produced, unless it raised. -/
theorem processChildren_append (xs ys : List Element) (r : Rates) :
    processChildren (xs ++ ys) r =
      match processChildren xs r with
      | .error msg => .error msg
      | .ok next => processChildren ys next := by
  induction xs generalizing r with
  | nil => rfl
  | cons a t ih =>
    rw [List.cons_append]
    simp only [processChildren]
    cases h : processChild r a with
    | error m => rfl
    | ok next => exact ih next

/-- A loop step on a `DATE`-suffixed child stores the child's
stripped text in the `date` field. -/
theorem processChild_date_set {m r : Rates} {d : Element}
    (hd : pyEndsWith d.tag "DATE" = true)
    (h : processChild m d = .ok r) :
    r.date = some (extract_stripped_text d) := by
  unfold processChild at h
  dsimp only at h
  rw [if_pos hd] at h
  simp at h
  rw [← h]

/-- A loop step on a child that is not `DATE`-suffixed leaves the
`date` field unchanged. -/
theorem processChild_date_keep {m r : Rates} {d : Element}
    (hd : pyEndsWith d.tag "DATE" = false)
    (h : processChild m d = .ok r) : r.date = m.date := by
  unfold processChild at h
  dsimp only at h
  split_ifs at h with t1 t2 t3 t4 t5
  · exact absurd t1 (by simp [hd])
  all_goals
    first
    | (simp at h
       rw [← h])
    | (rcases he : extract_decimal d with msg | dv
       · rw [he] at h
         simp [Except.map] at h
       · rw [he] at h
         simp [Except.map] at h
         rw [← h])

/-- A loop step on a `5YEAR`-suffixed child stores the parse of the
child's stripped text in the `r5y` field. -/
theorem processChild_r5y_set {m r : Rates} {d : Element}
    (h5 : pyEndsWith d.tag "5YEAR" = true)
    (h : processChild m d = .ok r) :
    r.r5y = pyDecimalOfString (extract_stripped_text d) := by
  have hd : pyEndsWith d.tag "DATE" = false :=
    endsWith_excl h5 (by decide) (by decide)
  unfold processChild at h
  dsimp only at h
  rw [if_neg (by simp [hd]), if_pos h5] at h
  rcases he : extract_decimal d with msg | dv
  · rw [he] at h
    simp [Except.map] at h
  · rw [he] at h
    simp [Except.map] at h
    rw [← h]
    unfold extract_decimal at he
    rcases hp : pyDecimalOfString (extract_stripped_text d) with _ | d2
    · rw [hp] at he
      simp at he
    · rw [hp] at he
      simp at he
      simp [he]

/-- A loop step on a child that is not `5YEAR`-suffixed leaves the
`r5y` field unchanged. -/
theorem processChild_r5y_keep {m r : Rates} {d : Element}
    (h5 : pyEndsWith d.tag "5YEAR" = false)
    (h : processChild m d = .ok r) : r.r5y = m.r5y := by
  unfold processChild at h
  dsimp only at h
  split_ifs at h with t1 t2 t3 t4 t5
  · simp at h
    rw [← h]
  · exact absurd t2 (by simp [h5])
  all_goals
    first
    | (simp at h
       rw [← h])
    | (rcases he : extract_decimal d with msg | dv
       · rw [he] at h
         simp [Except.map] at h
       · rw [he] at h
         simp [Except.map] at h
         rw [← h])

/-- When the `__init__` loop completes, the `date` field holds the
stripped text of the last `DATE`-suffixed child, or the initial value
when no child matches. -/
theorem processChildren_date (cs : List Element) (r0 : Rates) :
    ∀ r, processChildren cs r0 = .ok r →
      r.date = ((cs.filter (fun k => pyEndsWith k.tag "DATE")).getLast?).elim
        r0.date (fun k => some (extract_stripped_text k)) := by
  induction cs using List.reverseRecOn with
  | nil =>
      intro r h
      simp [processChildren] at h
      rw [← h]
      rfl
  | append_singleton ds d ih =>
      intro r h
      rw [processChildren_append] at h
      rcases hmid : processChildren ds r0 with msg | mid
      · rw [hmid] at h
        simp at h
      · rw [hmid] at h
        dsimp only at h
        have hstep : processChild mid d = .ok r := by
          simp only [processChildren] at h
          rcases hx : processChild mid d with msg | next
          · rw [hx] at h
            simp at h
          · rw [hx] at h
            dsimp only at h
            exact h
        rw [List.filter_append]
        cases hd : pyEndsWith d.tag "DATE" with
        | false =>
            simp only [List.filter_cons, List.filter_nil, hd,
              Bool.false_eq_true, if_false, List.append_nil]
            rw [processChild_date_keep hd hstep]
            exact ih mid hmid
        | true =>
            simp only [List.filter_cons, List.filter_nil, hd, if_true]
            rw [List.getLast?_concat]
            exact processChild_date_set hd hstep

/-- When the `__init__` loop completes, the `r5y` field holds the
parsed stripped text of the last `5YEAR`-suffixed child, or the
initial value when no child matches. -/
theorem processChildren_r5y (cs : List Element) (r0 : Rates) :
    ∀ r, processChildren cs r0 = .ok r →
      r.r5y = ((cs.filter (fun k => pyEndsWith k.tag "5YEAR")).getLast?).elim
        r0.r5y (fun k => pyDecimalOfString (extract_stripped_text k)) := by
  induction cs using List.reverseRecOn with
  | nil =>
      intro r h
      simp [processChildren] at h
      rw [← h]
      rfl
  | append_singleton ds d ih =>
      intro r h
      rw [processChildren_append] at h
      rcases hmid : processChildren ds r0 with msg | mid
      · rw [hmid] at h
        simp at h
      · rw [hmid] at h
        dsimp only at h
        have hstep : processChild mid d = .ok r := by
          simp only [processChildren] at h
          rcases hx : processChild mid d with msg | next
          · rw [hx] at h
            simp at h
          · rw [hx] at h
            dsimp only at h
            exact h
        rw [List.filter_append]
        cases h5 : pyEndsWith d.tag "5YEAR" with
        | false =>
            simp only [List.filter_cons, List.filter_nil, h5,
              Bool.false_eq_true, if_false, List.append_nil]
            rw [processChild_r5y_keep h5 hstep]
            exact ih mid hmid
        | true =>
            simp only [List.filter_cons, List.filter_nil, h5, if_true]
            rw [List.getLast?_concat]
            exact processChild_r5y_set h5 hstep

/-- A loop step on a `10YEAR`-suffixed child stores the parse of
the child's stripped text in the `r10y` field. -/
theorem processChild_r10y_set {m r : Rates} {d : Element}
    (hm : pyEndsWith d.tag "10YEAR" = true)
    (h : processChild m d = .ok r) :
    r.r10y = pyDecimalOfString (extract_stripped_text d) := by
  have hd : pyEndsWith d.tag "DATE" = false :=
    endsWith_excl hm (by decide) (by decide)
  have h5f : pyEndsWith d.tag "5YEAR" = false :=
    endsWith_excl hm (by decide) (by decide)
  unfold processChild at h
  dsimp only at h
  rw [if_neg (by simp [hd]), if_neg (by simp [h5f]), if_pos hm] at h
  rcases he : extract_decimal d with msg | dv
  · rw [he] at h
    simp [Except.map] at h
  · rw [he] at h
    simp [Except.map] at h
    rw [← h]
    unfold extract_decimal at he
    rcases hp : pyDecimalOfString (extract_stripped_text d) with _ | d2
    · rw [hp] at he
      simp at he
    · rw [hp] at he
      simp at he
      simp [he]

/-- A loop step on a child that is not `10YEAR`-suffixed leaves
the `r10y` field unchanged. -/
theorem processChild_r10y_keep {m r : Rates} {d : Element}
    (hm : pyEndsWith d.tag "10YEAR" = false)
    (h : processChild m d = .ok r) : r.r10y = m.r10y := by
  unfold processChild at h
  dsimp only at h
  split_ifs at h with t1 t2 t3 t4 t5
  · simp at h
    rw [← h]
  · rcases he : extract_decimal d with msg | dv
    · rw [he] at h
      simp [Except.map] at h
    · rw [he] at h
      simp [Except.map] at h
      rw [← h]
  · exact absurd t3 (by simp [hm])
  · rcases he : extract_decimal d with msg | dv
    · rw [he] at h
      simp [Except.map] at h
    · rw [he] at h
      simp [Except.map] at h
      rw [← h]
  · rcases he : extract_decimal d with msg | dv
    · rw [he] at h
      simp [Except.map] at h
    · rw [he] at h
      simp [Except.map] at h
      rw [← h]
  · simp at h
    rw [← h]

/-- A loop step on a `20YEAR`-suffixed child stores the parse of
the child's stripped text in the `r20y` field. -/
theorem processChild_r20y_set {m r : Rates} {d : Element}
    (hm : pyEndsWith d.tag "20YEAR" = true)
    (h : processChild m d = .ok r) :
    r.r20y = pyDecimalOfString (extract_stripped_text d) := by
  have hd : pyEndsWith d.tag "DATE" = false :=
    endsWith_excl hm (by decide) (by decide)
  have h5f : pyEndsWith d.tag "5YEAR" = false :=
    endsWith_excl hm (by decide) (by decide)
  have h10f : pyEndsWith d.tag "10YEAR" = false :=
    endsWith_excl hm (by decide) (by decide)
  unfold processChild at h
  dsimp only at h
  rw [if_neg (by simp [hd]), if_neg (by simp [h5f]), if_neg (by simp [h10f]), if_pos hm] at h
  rcases he : extract_decimal d with msg | dv
  · rw [he] at h
    simp [Except.map] at h
  · rw [he] at h
    simp [Except.map] at h
    rw [← h]
    unfold extract_decimal at he
    rcases hp : pyDecimalOfString (extract_stripped_text d) with _ | d2
    · rw [hp] at he
      simp at he
    · rw [hp] at he
      simp at he
      simp [he]

/-- A loop step on a child that is not `20YEAR`-suffixed leaves
the `r20y` field unchanged. -/
theorem processChild_r20y_keep {m r : Rates} {d : Element}
    (hm : pyEndsWith d.tag "20YEAR" = false)
    (h : processChild m d = .ok r) : r.r20y = m.r20y := by
  unfold processChild at h
  dsimp only at h
  split_ifs at h with t1 t2 t3 t4 t5
  · simp at h
    rw [← h]
  · rcases he : extract_decimal d with msg | dv
    · rw [he] at h
      simp [Except.map] at h
    · rw [he] at h
      simp [Except.map] at h
      rw [← h]
  · rcases he : extract_decimal d with msg | dv
    · rw [he] at h
      simp [Except.map] at h
    · rw [he] at h
      simp [Except.map] at h
      rw [← h]
  · exact absurd t4 (by simp [hm])
  · rcases he : extract_decimal d with msg | dv
    · rw [he] at h
      simp [Except.map] at h
    · rw [he] at h
      simp [Except.map] at h
      rw [← h]
  · simp at h
    rw [← h]

/-- A loop step on a `30YEAR`-suffixed child stores the parse of
the child's stripped text in the `r30y` field. -/
theorem processChild_r30y_set {m r : Rates} {d : Element}
    (hm : pyEndsWith d.tag "30YEAR" = true)
    (h : processChild m d = .ok r) :
    r.r30y = pyDecimalOfString (extract_stripped_text d) := by
  have hd : pyEndsWith d.tag "DATE" = false :=
    endsWith_excl hm (by decide) (by decide)
  have h5f : pyEndsWith d.tag "5YEAR" = false :=
    endsWith_excl hm (by decide) (by decide)
  have h10f : pyEndsWith d.tag "10YEAR" = false :=
    endsWith_excl hm (by decide) (by decide)
  have h20f : pyEndsWith d.tag "20YEAR" = false :=
    endsWith_excl hm (by decide) (by decide)
  unfold processChild at h
  dsimp only at h
  rw [if_neg (by simp [hd]), if_neg (by simp [h5f]), if_neg (by simp [h10f]), if_neg (by simp [h20f]), if_pos hm] at h
  rcases he : extract_decimal d with msg | dv
  · rw [he] at h
    simp [Except.map] at h
  · rw [he] at h
    simp [Except.map] at h
    rw [← h]
    unfold extract_decimal at he
    rcases hp : pyDecimalOfString (extract_stripped_text d) with _ | d2
    · rw [hp] at he
      simp at he
    · rw [hp] at he
      simp at he
      simp [he]

/-- A loop step on a child that is not `30YEAR`-suffixed leaves
the `r30y` field unchanged. -/
theorem processChild_r30y_keep {m r : Rates} {d : Element}
    (hm : pyEndsWith d.tag "30YEAR" = false)
    (h : processChild m d = .ok r) : r.r30y = m.r30y := by
  unfold processChild at h
  dsimp only at h
  split_ifs at h with t1 t2 t3 t4 t5
  · simp at h
    rw [← h]
  · rcases he : extract_decimal d with msg | dv
    · rw [he] at h
      simp [Except.map] at h
    · rw [he] at h
      simp [Except.map] at h
      rw [← h]
  · rcases he : extract_decimal d with msg | dv
    · rw [he] at h
      simp [Except.map] at h
    · rw [he] at h
      simp [Except.map] at h
      rw [← h]
  · rcases he : extract_decimal d with msg | dv
    · rw [he] at h
      simp [Except.map] at h
    · rw [he] at h
      simp [Except.map] at h
      rw [← h]
  · exact absurd t5 (by simp [hm])
  · simp at h
    rw [← h]

/-- When the `__init__` loop completes, the `r10y` field holds
the parsed stripped text of the last `10YEAR`-suffixed child, or
the initial value when no child matches. -/
theorem processChildren_r10y (cs : List Element) (r0 : Rates) :
    ∀ r, processChildren cs r0 = .ok r →
      r.r10y = ((cs.filter (fun k => pyEndsWith k.tag "10YEAR")).getLast?).elim
        r0.r10y (fun k => pyDecimalOfString (extract_stripped_text k)) := by
  induction cs using List.reverseRecOn with
  | nil =>
      intro r h
      simp [processChildren] at h
      rw [← h]
      rfl
  | append_singleton ds d ih =>
      intro r h
      rw [processChildren_append] at h
      rcases hmid : processChildren ds r0 with msg | mid
      · rw [hmid] at h
        simp at h
      · rw [hmid] at h
        dsimp only at h
        have hstep : processChild mid d = .ok r := by
          simp only [processChildren] at h
          rcases hx : processChild mid d with msg | next
          · rw [hx] at h
            simp at h
          · rw [hx] at h
            dsimp only at h
            exact h
        rw [List.filter_append]
        cases hm : pyEndsWith d.tag "10YEAR" with
        | false =>
            simp only [List.filter_cons, List.filter_nil, hm,
              Bool.false_eq_true, if_false, List.append_nil]
            rw [processChild_r10y_keep hm hstep]
            exact ih mid hmid
        | true =>
            simp only [List.filter_cons, List.filter_nil, hm, if_true]
            rw [List.getLast?_concat]
            exact processChild_r10y_set hm hstep

/-- When the `__init__` loop completes, the `r20y` field holds
the parsed stripped text of the last `20YEAR`-suffixed child, or
the initial value when no child matches. -/
theorem processChildren_r20y (cs : List Element) (r0 : Rates) :
    ∀ r, processChildren cs r0 = .ok r →
      r.r20y = ((cs.filter (fun k => pyEndsWith k.tag "20YEAR")).getLast?).elim
        r0.r20y (fun k => pyDecimalOfString (extract_stripped_text k)) := by
  induction cs using List.reverseRecOn with
  | nil =>
      intro r h
      simp [processChildren] at h
      rw [← h]
      rfl
  | append_singleton ds d ih =>
      intro r h
      rw [processChildren_append] at h
      rcases hmid : processChildren ds r0 with msg | mid
      · rw [hmid] at h
        simp at h
      · rw [hmid] at h
        dsimp only at h
        have hstep : processChild mid d = .ok r := by
          simp only [processChildren] at h
          rcases hx : processChild mid d with msg | next
          · rw [hx] at h
            simp at h
          · rw [hx] at h
            dsimp only at h
            exact h
        rw [List.filter_append]
        cases hm : pyEndsWith d.tag "20YEAR" with
        | false =>
            simp only [List.filter_cons, List.filter_nil, hm,
              Bool.false_eq_true, if_false, List.append_nil]
            rw [processChild_r20y_keep hm hstep]
            exact ih mid hmid
        | true =>
            simp only [List.filter_cons, List.filter_nil, hm, if_true]
            rw [List.getLast?_concat]
            exact processChild_r20y_set hm hstep

/-- When the `__init__` loop completes, the `r30y` field holds
the parsed stripped text of the last `30YEAR`-suffixed child, or
the initial value when no child matches. -/
theorem processChildren_r30y (cs : List Element) (r0 : Rates) :
    ∀ r, processChildren cs r0 = .ok r →
      r.r30y = ((cs.filter (fun k => pyEndsWith k.tag "30YEAR")).getLast?).elim
        r0.r30y (fun k => pyDecimalOfString (extract_stripped_text k)) := by
  induction cs using List.reverseRecOn with
  | nil =>
      intro r h
      simp [processChildren] at h
      rw [← h]
      rfl
  | append_singleton ds d ih =>
      intro r h
      rw [processChildren_append] at h
      rcases hmid : processChildren ds r0 with msg | mid
      · rw [hmid] at h
        simp at h
      · rw [hmid] at h
        dsimp only at h
        have hstep : processChild mid d = .ok r := by
          simp only [processChildren] at h
          rcases hx : processChild mid d with msg | next
          · rw [hx] at h
            simp at h
          · rw [hx] at h
            dsimp only at h
            exact h
        rw [List.filter_append]
        cases hm : pyEndsWith d.tag "30YEAR" with
        | false =>
            simp only [List.filter_cons, List.filter_nil, hm,
              Bool.false_eq_true, if_false, List.append_nil]
            rw [processChild_r30y_keep hm hstep]
            exact ih mid hmid
        | true =>
            simp only [List.filter_cons, List.filter_nil, hm, if_true]
            rw [List.getLast?_concat]
            exact processChild_r30y_set hm hstep

/-! Claim theorems and their witnesses. -/

/-- Claim C1: when a tenor field (here the 5-year one) is absent from
the properties node, extraction still constructs a `Rates` record —
but, contrary to the claim, CSV formatting of that record does not
tolerate the blank: `print_as_csv` reads the never-assigned `r5y`
dataclass field and raises `AttributeError`. -/
theorem c1_missing_tenor_csv_raises :
    (Rates.init propsNo5Year RatesType.NOMINAL).toOption.isSome = true
    ∧ (Rates.init propsNo5Year RatesType.NOMINAL).bind print_as_csv
        = Except.error "AttributeError: r5y" :=
  ⟨rfl, rfl⟩

/-- Claim C2: the input text `"4.123456789"` parses, is stored with
all ten of its significant digits, and is rendered unrounded in the
CSV output — the `Decimal` constructor ignores the context precision,
so, contrary to the claim, the output is not bounded to 6 significant
digits. -/
theorem c2_parse_keeps_full_precision :
    ((Rates.init propsPrecise RatesType.NOMINAL).toOption.bind
        Rates.r5y).map Decimal.sigDigits = some 10
    ∧ ((Rates.init propsPrecise RatesType.NOMINAL).toOption.bind
        Rates.r5y).map Decimal.render = some "4.123456789"
    ∧ (Rates.init propsPrecise RatesType.NOMINAL).bind print_as_csv
        = Except.ok ["NAME,VALUE", "NEW_DATE,2024-01-02",
            "BC_5YEAR,4.123456789", "BC_10YEAR,4.20",
            "BC_20YEAR,4.10", "BC_30YEAR,4.35"] :=
  ⟨rfl, rfl, rfl⟩

/-- Claim C3: on the worked example — a properties node with
namespaced `DATE`, `5YEAR`, `10YEAR`, `20YEAR`, `30YEAR` children
carrying `2024-01-02`, `4.55`, `4.20`, `4.10`, `4.35` — extraction for
`NOMINAL` renders exactly the six `BC_`-prefixed CSV lines, and for
`REAL` the same lines with the `TC_` prefix. -/
theorem c3_worked_example_csv :
    (Rates.init propsFull RatesType.NOMINAL).bind print_as_csv
      = Except.ok ["NAME,VALUE", "NEW_DATE,2024-01-02", "BC_5YEAR,4.55",
          "BC_10YEAR,4.20", "BC_20YEAR,4.10", "BC_30YEAR,4.35"]
    ∧ (Rates.init propsFull RatesType.REAL).bind print_as_csv
      = Except.ok ["NAME,VALUE", "NEW_DATE,2024-01-02", "TC_5YEAR,4.55",
          "TC_10YEAR,4.20", "TC_20YEAR,4.10", "TC_30YEAR,4.35"] :=
  ⟨rfl, rfl⟩

/-- Claim C4: `get_last_entry` returns the last `entry`-suffixed
direct child in document order when one exists, and `none` when the
root has no such child. -/
theorem c4_get_last_entry_spec (root : Element) :
    (∀ e, (find_all_ending_with root "entry").getLast? = some e →
        get_last_entry root = some e)
    ∧ (find_all_ending_with root "entry" = [] →
        get_last_entry root = none) := by
  constructor
  · intro e he
    unfold get_last_entry
    rw [foldl_keep_last, he]
  · intro h
    unfold get_last_entry
    rw [h]
    rfl

/-- Witness for C4 at a concrete feed with two entries. -/
theorem c4_witness :
    get_last_entry rootTwoEntries = some (.mk "b:entry" none []) :=
  (c4_get_last_entry_spec rootTwoEntries).1 (.mk "b:entry" none []) rfl

/-- Claim C5: `find_only_one_ending_with` fails exactly when the
number of matching children differs from one, and returns the single
matching child otherwise. -/
theorem c5_find_only_one_spec (e : Element) (tag : String) :
    ((find_only_one_ending_with e tag).toOption = none ↔
        (find_all_ending_with e tag).length ≠ 1)
    ∧ (∀ c, find_all_ending_with e tag = [c] →
        find_only_one_ending_with e tag = .ok c) := by
  constructor
  · unfold find_only_one_ending_with
    dsimp only
    split
    · rename_i h
      simp [Except.toOption, h]
    · rename_i h
      simp [Except.toOption, h]
  · intro c hc
    have key : ∀ (l : List Element), l = [c] →
        (if h : l.length = 1 then Except.ok (l.get ⟨0, by omega⟩)
         else Except.error "AssertionError") = Except.ok c := by
      intro l hl
      subst hl
      rfl
    exact key _ hc

/-- Witness for C5: exactly one `content`-suffixed child. -/
theorem c5_witness :
    find_only_one_ending_with entryOneContent "content"
      = Except.ok (.mk "m:content" none []) :=
  (c5_find_only_one_spec entryOneContent "content").2 (.mk "m:content" none []) rfl

/-- Claim C6: a feed document with no `entry`-suffixed child makes
`get_rates` return the "no data" value (not an error), and `main`
prints no block for it. -/
theorem c6_no_entries (root : Element) (rt : RatesType)
    (h : find_all_ending_with root "entry" = []) :
    get_rates root rt = .ok none ∧ feed_output root rt = .ok [] := by
  have hl : get_last_entry root = none := by
    unfold get_last_entry
    rw [h]
    rfl
  have hg : get_rates root rt = .ok none := by
    unfold get_rates
    rw [hl]
  refine ⟨hg, ?_⟩
  unfold feed_output
  rw [hg]
  rfl

/-- Witness for C6 at a concrete entryless feed. -/
theorem c6_witness :
    get_rates rootNoEntries RatesType.NOMINAL = .ok none
    ∧ feed_output rootNoEntries RatesType.NOMINAL = .ok [] :=
  c6_no_entries rootNoEntries RatesType.NOMINAL rfl

/-- Claim C7: a tenor child whose stripped text is not a valid
numeric string (in particular blank text) makes `Rates.__init__`
raise `InvalidOperation` instead of producing a record. -/
theorem c7_unparseable_tenor_fatal (props : Element) (rt : RatesType)
    (c : Element) (hmem : c ∈ props.children)
    (htenor : pyEndsWith c.tag "5YEAR" = true
      ∨ pyEndsWith c.tag "10YEAR" = true
      ∨ pyEndsWith c.tag "20YEAR" = true
      ∨ pyEndsWith c.tag "30YEAR" = true)
    (hfail : pyDecimalOfString (extract_stripped_text c) = none) :
    Rates.init props rt = .error "InvalidOperation" := by
  unfold Rates.init
  exact processChildren_fail props.children c hmem
    (fun r => processChild_tenor_fail r c htenor hfail) _

/-- Witness for C7: a 5-year tenor child with whitespace-only text. -/
theorem c7_witness :
    pyDecimalOfString
        (extract_stripped_text (.mk "d:BC_5YEAR" (some "  ") [])) = none
    ∧ Rates.init propsBlank5Year RatesType.NOMINAL
        = .error "InvalidOperation" :=
  ⟨rfl,
    c7_unparseable_tenor_fatal propsBlank5Year RatesType.NOMINAL
      (.mk "d:BC_5YEAR" (some "  ") []) (List.Mem.head _)
      (Or.inl rfl) rfl⟩

/-- Claim C8: a single `DATE`-suffixed child yields a record whose
`date` is its stripped text — the empty string when the text is
missing — and missing text is not a failure. -/
theorem c8_date_spec (tg : String) (txt : Option String) (rt : RatesType)
    (hd : pyEndsWith tg "DATE" = true) :
    Rates.init (.mk "m:properties" none [ .mk tg txt [] ]) rt
      = .ok { rt := rt,
              date := some (extract_stripped_text (.mk tg txt [])),
              r5y := none, r10y := none, r20y := none, r30y := none }
    ∧ (txt = none → extract_stripped_text (.mk tg txt []) = "") := by
  constructor
  · simp [Rates.init, processChildren, processChild,
      Element.children, Element.tag, hd]
  · intro h
    subst h
    rfl

/-- Witness for C8: a `DATE` child with no text gives `date = ""`. -/
theorem c8_witness :
    Rates.init (.mk "m:properties" none [ .mk "d:NEW_DATE" none [] ])
        RatesType.NOMINAL
      = .ok { rt := RatesType.NOMINAL, date := some "",
              r5y := none, r10y := none, r20y := none, r30y := none } :=
  (c8_date_spec "d:NEW_DATE" none RatesType.NOMINAL rfl).1

/-- Claim C9: a child whose tag matches none of the five suffixes is
ignored — inserting it anywhere between the other children leaves the
constructed record (or the raised exception) unchanged. -/
theorem c9_unrecognized_ignored (ptag : String) (ptext : Option String)
    (xs ys : List Element) (c : Element) (rt : RatesType)
    (hd : pyEndsWith c.tag "DATE" = false)
    (h5 : pyEndsWith c.tag "5YEAR" = false)
    (h10 : pyEndsWith c.tag "10YEAR" = false)
    (h20 : pyEndsWith c.tag "20YEAR" = false)
    (h30 : pyEndsWith c.tag "30YEAR" = false) :
    Rates.init (.mk ptag ptext (xs ++ c :: ys)) rt
      = Rates.init (.mk ptag ptext (xs ++ ys)) rt := by
  unfold Rates.init
  dsimp only [Element.children]
  rw [processChildren_append, processChildren_append]
  cases processChildren xs
      { rt := rt, date := none, r5y := none, r10y := none,
        r20y := none, r30y := none } with
  | error m => rfl
  | ok next =>
      dsimp only
      simp only [processChildren]
      have hskip : processChild next c = .ok next := by
        simp [processChild, hd, h5, h10, h20, h30]
      rw [hskip]

/-- Witness for C9: dropping an unrecognized `d:OTHER` child leaves
the record unchanged. -/
theorem c9_witness :
    Rates.init (.mk "m:properties" none
        [ .mk "d:NEW_DATE" (some "2024-01-02") [],
          .mk "d:OTHER" (some "x") [],
          .mk "d:BC_5YEAR" (some "4.55") [] ]) RatesType.NOMINAL
      = Rates.init (.mk "m:properties" none
        [ .mk "d:NEW_DATE" (some "2024-01-02") [],
          .mk "d:BC_5YEAR" (some "4.55") [] ]) RatesType.NOMINAL :=
  c9_unrecognized_ignored "m:properties" none
    [ .mk "d:NEW_DATE" (some "2024-01-02") [] ]
    [ .mk "d:BC_5YEAR" (some "4.55") [] ]
    (.mk "d:OTHER" (some "x") []) RatesType.NOMINAL rfl rfl rfl rfl rfl

/-- Claim C10: when several children match the same field suffix —
whichever of the five suffixes it is — the constructed record holds
the value from the last matching child in document order. -/
theorem c10_last_match_wins (props : Element) (rt : RatesType) (r : Rates)
    (h : Rates.init props rt = .ok r) :
    (∀ c, (props.children.filter
          (fun k => pyEndsWith k.tag "DATE")).getLast? = some c →
        r.date = some (extract_stripped_text c))
    ∧ (∀ c, (props.children.filter
          (fun k => pyEndsWith k.tag "5YEAR")).getLast? = some c →
        r.r5y = pyDecimalOfString (extract_stripped_text c))
    ∧ (∀ c, (props.children.filter
          (fun k => pyEndsWith k.tag "10YEAR")).getLast? = some c →
        r.r10y = pyDecimalOfString (extract_stripped_text c))
    ∧ (∀ c, (props.children.filter
          (fun k => pyEndsWith k.tag "20YEAR")).getLast? = some c →
        r.r20y = pyDecimalOfString (extract_stripped_text c))
    ∧ (∀ c, (props.children.filter
          (fun k => pyEndsWith k.tag "30YEAR")).getLast? = some c →
        r.r30y = pyDecimalOfString (extract_stripped_text c)) := by
  unfold Rates.init at h
  refine ⟨?_, ?_, ?_, ?_, ?_⟩
  · intro c hc
    rw [processChildren_date props.children _ r h, hc]
    rfl
  · intro c hc
    rw [processChildren_r5y props.children _ r h, hc]
    rfl
  · intro c hc
    rw [processChildren_r10y props.children _ r h, hc]
    rfl
  · intro c hc
    rw [processChildren_r20y props.children _ r h, hc]
    rfl
  · intro c hc
    rw [processChildren_r30y props.children _ r h, hc]
    rfl

/-- Witness for C10: every field suffix duplicated; the later values
win in each field. -/
theorem c10_witness :
    Rates.init propsDup RatesType.NOMINAL = .ok ratesDup
    ∧ ratesDup.date = some "2024-01-02"
    ∧ ratesDup.r5y = some (.finite false [4, 2] (-1))
    ∧ ratesDup.r10y = some (.finite false [4, 4] (-1))
    ∧ ratesDup.r20y = some (.finite false [4, 6] (-1))
    ∧ ratesDup.r30y = some (.finite false [4, 8] (-1)) :=
  ⟨rfl,
    (c10_last_match_wins propsDup RatesType.NOMINAL ratesDup rfl).1
      (.mk "d:NEW_DATE" (some "2024-01-02") []) rfl,
    (c10_last_match_wins propsDup RatesType.NOMINAL ratesDup rfl).2.1
      (.mk "d:BC_5YEAR" (some "4.2") []) rfl,
    (c10_last_match_wins propsDup RatesType.NOMINAL ratesDup rfl).2.2.1
      (.mk "d:BC_10YEAR" (some "4.4") []) rfl,
    (c10_last_match_wins propsDup RatesType.NOMINAL ratesDup rfl).2.2.2.1
      (.mk "d:BC_20YEAR" (some "4.6") []) rfl,
    (c10_last_match_wins propsDup RatesType.NOMINAL ratesDup rfl).2.2.2.2
      (.mk "d:BC_30YEAR" (some "4.8") []) rfl⟩
